import Mathlib

/-!
Verification of the SRE adaptive-throttling circuit breaker
(`github.com/yimi-go/sre-circuit-breaker`, file `sre.go`).

The Go code is shallowly embedded as follows:
* Go `float64` values are modelled as exact rationals `ℚ`; the claims under
  study are exact-arithmetic comparison facts about the formulas in the code.
* Go `int64` counters are modelled as `ℤ` (no overflow is in play: the window
  only ever holds values `0` and `1` added one at a time).
* The rolling statistics window (external collaborator `window.Window`) is
  modelled as the list of sample values currently inside the trailing span,
  newest first: `Add v` prepends `v`, `Sum` is the list sum, `Count` the list
  length.  Time-based bucket rotation is out of scope of the claims treated
  here.
* Go `error` results are modelled by `Option GoError`: `none` is `nil`,
  `some .errNotAllowed` is the sentinel `circuit_breaker.ErrNotAllowed()`,
  and the `other` constructor stands for every other conceivable Go error.
* The pooled `*rand.Rand` generator is modelled by the single uniform sample
  in `[0,1)` that the default `dropProba` policy draws from it; `allow`
  reports in `draws` how many samples were consumed, and in `post` the
  breaker state after the call (the Go method never writes to the window).
-/

namespace SreBreaker

/-- Go `error` universe: `nil` is `Option.none`; the sentinel rejection error
`circuit_breaker.ErrNotAllowed()` is `errNotAllowed`; `other` covers all
remaining Go errors, so that range statements about `Allow` are not vacuous. -/
inductive GoError where
  | errNotAllowed : GoError
  | other : String → GoError
deriving DecidableEq, Repr

/-- Embedding of the Go `options` struct of `sre.go`. -/
structure Options where
  isr : ℚ
  ignoreRequests : ℤ
  buckets : ℤ
  requireBucketDuration : ℤ
deriving Repr

/-- Embedding of `WithInspirationSuccessRate`: stores the given isr verbatim. -/
def WithInspirationSuccessRate (isr : ℚ) : Options → Options :=
  fun o => { o with isr := isr }

/-- Embedding of `WithIgnoreRequest`. -/
def WithIgnoreRequest (ir : ℤ) : Options → Options :=
  fun o => { o with ignoreRequests := ir }

/-- Embedding of `WithBuckets`. -/
def WithBuckets (buckets : ℤ) : Options → Options :=
  fun o => { o with buckets := buckets }

/-- Embedding of `WithRequireBucketDuration` (duration in nanoseconds). -/
def WithRequireBucketDuration (d : ℤ) : Options → Options :=
  fun o => { o with requireBucketDuration := d }

/-- The defaults set at the top of `New` in `sre.go`:
isr 0.5, ignoreRequests 100, buckets 10, requireBucketDuration `1 << 28`. -/
def defaultOptions : Options :=
  { isr := 1 / 2
    ignoreRequests := 100
    buckets := 10
    requireBucketDuration := 2 ^ 28 }

/-- Embedding of the `breaker` struct.  `window` models the `window.Window`
statistic as the list of values added within the trailing span, newest first.
`dropProba` is the injectable drop-decision policy; it receives the uniform
sample the Go default reads from the pooled generator, and the probability. -/
structure Breaker where
  window : List ℤ
  dropProba : ℚ → ℚ → Bool
  isr : ℚ
  ignoreRequests : ℤ

/-- The default drop policy installed by `New`:
`func(r *rand.Rand, proba float64) bool { return r.Float64() < proba }`. -/
def dropProbaDefault (sample proba : ℚ) : Bool :=
  sample < proba

/-- Embedding of `New`: applies the option setters to the defaults and builds
a breaker with an empty window and the default drop policy. -/
def New (opts : List (Options → Options)) : Breaker :=
  let opt := opts.foldl (fun o f => f o) defaultOptions
  { window := []
    dropProba := dropProbaDefault
    isr := opt.isr
    ignoreRequests := opt.ignoreRequests }

/-- Embedding of `breaker.summary`: `success = Sum`, `total = Count` of the
window aggregation. -/
def Breaker.summary (b : Breaker) : ℤ × ℤ :=
  (b.window.sum, (b.window.length : ℤ))

/-- The `inspirationRequests` quantity computed inside `Allow`:
`float64(accepts) / b.isr`. -/
def inspirationRequests (accepts : ℤ) (isr : ℚ) : ℚ :=
  (accepts : ℚ) / isr

/-- The drop probability computed inside `Allow`:
`math.Max(0, (float64(total)-inspirationRequests)/float64(total+1))`. -/
def dropRate (accepts total : ℤ) (isr : ℚ) : ℚ :=
  max 0 (((total : ℚ) - inspirationRequests accepts isr) / ((total : ℚ) + 1))

/-- Result of one `Allow` call: the returned Go error (`none` = admitted),
the number of uniform samples drawn from the pooled generator, and the
breaker state after the call. -/
structure AllowOutcome where
  err : Option GoError
  draws : ℕ
  post : Breaker

/-- Embedding of `breaker.Allow`.  `sample` is the uniform value in `[0,1)`
the pooled generator would produce for this call; it is handed to the
`dropProba` policy together with the computed drop probability. -/
def Breaker.allow (b : Breaker) (sample : ℚ) : AllowOutcome :=
  let accepts := b.summary.1
  let total := b.summary.2
  if total < b.ignoreRequests ∨ (total : ℚ) < inspirationRequests accepts b.isr then
    { err := none, draws := 0, post := b }
  else
    let dr := dropRate accepts total b.isr
    if b.dropProba sample dr then
      { err := some GoError.errNotAllowed, draws := 1, post := b }
    else
      { err := none, draws := 1, post := b }

/-- Embedding of `breaker.MarkSuccess`: records `Add(1)` into the window. -/
def Breaker.MarkSuccess (b : Breaker) : Breaker :=
  { b with window := 1 :: b.window }

/-- Embedding of `breaker.MarkFailed`: records `Add(0)` into the window. -/
def Breaker.MarkFailed (b : Breaker) : Breaker :=
  { b with window := 0 :: b.window }

/-- One outcome report, as fed to the breaker by its caller. -/
inductive MarkOp where
  | success : MarkOp
  | failed : MarkOp
deriving DecidableEq, Repr

/-- Apply a single mark operation. -/
def applyOp (b : Breaker) : MarkOp → Breaker
  | MarkOp.success => b.MarkSuccess
  | MarkOp.failed => b.MarkFailed

/-- Apply a sequence of mark operations, oldest first. -/
def applyOps (b : Breaker) (ops : List MarkOp) : Breaker :=
  ops.foldl applyOp b

end SreBreaker
namespace SreBreaker

/-! ### Helper lemmas (shared) -/

/-- Unfolding `allow` in the branch where the self-protection guard fires. -/
theorem allow_of_guard {b : Breaker} (sample : ℚ)
    (h : b.summary.2 < b.ignoreRequests ∨
      (b.summary.2 : ℚ) < inspirationRequests b.summary.1 b.isr) :
    b.allow sample = ⟨none, 0, b⟩ := by
  simp only [Breaker.allow]
  rw [if_pos h]

/-- Unfolding `allow` in the branch where the guard does not fire. -/
theorem allow_of_not_guard {b : Breaker} (sample : ℚ)
    (h : ¬(b.summary.2 < b.ignoreRequests ∨
      (b.summary.2 : ℚ) < inspirationRequests b.summary.1 b.isr)) :
    b.allow sample =
      if b.dropProba sample (dropRate b.summary.1 b.summary.2 b.isr) then
        ⟨some GoError.errNotAllowed, 1, b⟩
      else ⟨none, 1, b⟩ := by
  simp only [Breaker.allow]
  rw [if_neg h]

theorem applyOps_cons (b : Breaker) (op : MarkOp) (ops : List MarkOp) :
    applyOps b (op :: ops) = applyOps (applyOp b op) ops := rfl

theorem applyOp_ignoreRequests (b : Breaker) (op : MarkOp) :
    (applyOp b op).ignoreRequests = b.ignoreRequests := by
  cases op <;> rfl

theorem applyOps_ignoreRequests (b : Breaker) (ops : List MarkOp) :
    (applyOps b ops).ignoreRequests = b.ignoreRequests := by
  induction ops generalizing b with
  | nil => rfl
  | cons op ops ih => rw [applyOps_cons, ih, applyOp_ignoreRequests]

/-- A run of `n` `MarkFailed` calls prepends `n` zero samples to the window. -/
theorem applyOps_replicate_failed_window (b0 : Breaker) (n : ℕ) :
    (applyOps b0 (List.replicate n MarkOp.failed)).window =
      List.replicate n 0 ++ b0.window := by
  induction n generalizing b0 with
  | zero => simp [applyOps]
  | succ n ih =>
    rw [List.replicate_succ, applyOps_cons, ih]
    simp only [applyOp, Breaker.MarkFailed]
    rw [show ((0:ℤ) :: b0.window) = [(0:ℤ)] ++ b0.window from rfl,
      ← List.append_assoc, ← List.replicate_succ']

/-! ### The claims -/

/-- Claim C1: whenever the self-protection guard condition holds
(`totalCount < ignoreRequests` or `totalCount < successCount / isr`, with
`isr > 0`), `Allow` returns `nil` and draws no random sample; in particular,
after any sequence of at most `ignoreRequests - 1` `MarkFailed` calls and no
`MarkSuccess` calls on a fresh breaker, `Allow` always admits. -/
theorem claim1_self_protection :
    (∀ (b : Breaker) (sample : ℚ), 0 < b.isr →
      (b.summary.2 < b.ignoreRequests ∨
        (b.summary.2 : ℚ) < inspirationRequests b.summary.1 b.isr) →
      (b.allow sample).err = none ∧ (b.allow sample).draws = 0) ∧
    (∀ (b0 : Breaker) (n : ℕ) (sample : ℚ), b0.window = [] →
      (n : ℤ) ≤ b0.ignoreRequests - 1 →
      ((applyOps b0 (List.replicate n MarkOp.failed)).allow sample).err = none ∧
      ((applyOps b0 (List.replicate n MarkOp.failed)).allow sample).draws = 0) := by
  constructor
  · intro b sample _ hg
    rw [allow_of_guard sample hg]
    exact ⟨rfl, rfl⟩
  · intro b0 n sample hw hn
    set b := applyOps b0 (List.replicate n MarkOp.failed) with hb
    have hwin : b.window = List.replicate n 0 := by
      rw [hb, applyOps_replicate_failed_window, hw, List.append_nil]
    have hir : b.ignoreRequests = b0.ignoreRequests := by
      rw [hb, applyOps_ignoreRequests]
    have hguard : b.summary.2 < b.ignoreRequests ∨
        (b.summary.2 : ℚ) < inspirationRequests b.summary.1 b.isr := by
      left
      rw [hir]
      simp only [Breaker.summary, hwin, List.length_replicate]
      omega
    rw [allow_of_guard sample hguard]
    exact ⟨rfl, rfl⟩

/-- A fresh breaker with the default configuration, for the C1 witness. -/
def breakerC1 : Breaker :=
  { window := [], dropProba := dropProbaDefault, isr := 1 / 2, ignoreRequests := 100 }

/-- Witness for C1 at a concrete breaker: the guard admits on an empty window,
and 99 consecutive failures still always admit with no sample drawn. -/
theorem claim1_self_protection_witness :
    ((breakerC1.allow 0).err = none ∧ (breakerC1.allow 0).draws = 0) ∧
    (((applyOps breakerC1 (List.replicate 99 MarkOp.failed)).allow 0).err = none ∧
      ((applyOps breakerC1 (List.replicate 99 MarkOp.failed)).allow 0).draws = 0) :=
  ⟨claim1_self_protection.1 breakerC1 0 (by norm_num [breakerC1])
      (Or.inl (by norm_num [breakerC1, Breaker.summary])),
    claim1_self_protection.2 breakerC1 99 0 rfl (by norm_num [breakerC1])⟩

/-- Claim C2: with the default drop policy, high volume
(`totalCount > ignoreRequests`) and a healthy success rate
(`successCount / totalCount ≥ isr`, `isr ∈ (0,1]`) make `Allow` admit for
every sample in `[0,1)`: either the guard admits, or the drop probability is
`0` and `sample < 0` is false. -/
theorem claim2_healthy_admits (b : Breaker) (sample : ℚ)
    (hpol : b.dropProba = dropProbaDefault)
    (hisr0 : 0 < b.isr) (hisr1 : b.isr ≤ 1)
    (hvol : b.ignoreRequests < b.summary.2)
    (hrate : b.isr ≤ (b.summary.1 : ℚ) / (b.summary.2 : ℚ))
    (hs : 0 ≤ sample) :
    (b.allow sample).err = none := by
  have ht0 : 0 ≤ b.summary.2 := Int.ofNat_nonneg _
  have htpos : 0 < b.summary.2 := by
    rcases lt_or_eq_of_le ht0 with h | h
    · exact h
    · exfalso
      rw [← h] at hrate
      norm_num at hrate
      linarith
  have htq : (0 : ℚ) < (b.summary.2 : ℚ) := by exact_mod_cast htpos
  have hinsp : (b.summary.2 : ℚ) ≤ inspirationRequests b.summary.1 b.isr := by
    rw [inspirationRequests, le_div_iff₀ hisr0]
    calc (b.summary.2 : ℚ) * b.isr
        ≤ (b.summary.2 : ℚ) * ((b.summary.1 : ℚ) / (b.summary.2 : ℚ)) := by
          exact mul_le_mul_of_nonneg_left hrate (le_of_lt htq)
      _ = (b.summary.1 : ℚ) := by field_simp
  by_cases hg : b.summary.2 < b.ignoreRequests ∨
      (b.summary.2 : ℚ) < inspirationRequests b.summary.1 b.isr
  · rw [allow_of_guard sample hg]
  · rw [allow_of_not_guard sample hg]
    have hdr : dropRate b.summary.1 b.summary.2 b.isr = 0 := by
      rw [dropRate]
      rw [max_eq_left]
      apply div_nonpos_iff.mpr
      right
      constructor
      · linarith
      · linarith
    rw [hdr, hpol]
    have hfalse : dropProbaDefault sample 0 = false := by
      simp [dropProbaDefault]
      linarith
    rw [hfalse]
    simp

/-- A breaker with 3 successes out of 3 and `ignoreRequests = 2`, for the C2
witness. -/
def breakerC2 : Breaker :=
  { window := [1, 1, 1], dropProba := dropProbaDefault, isr := 1 / 2, ignoreRequests := 2 }

/-- Witness for C2: a fully successful window above the volume floor admits. -/
theorem claim2_healthy_admits_witness : (breakerC2.allow 0).err = none :=
  claim2_healthy_admits breakerC2 0 rfl (by norm_num [breakerC2])
    (by norm_num [breakerC2]) (by norm_num [breakerC2, Breaker.summary])
    (by norm_num [breakerC2, Breaker.summary]) le_rfl

end SreBreaker
namespace SreBreaker

/-- Claim C3: when the guard does not fire (`totalCount ≥ ignoreRequests` and
`totalCount ≥ successCount / isr`), `Allow` computes the drop probability as
`max 0 ((totalCount - successCount / isr) / (totalCount + 1))`, draws one
sample, and rejects exactly when the `dropProba` policy says so. -/
theorem claim3_drop_formula (b : Breaker) (sample : ℚ)
    (h1 : b.ignoreRequests ≤ b.summary.2)
    (h2 : inspirationRequests b.summary.1 b.isr ≤ (b.summary.2 : ℚ)) :
    (dropRate b.summary.1 b.summary.2 b.isr =
      max 0 (((b.summary.2 : ℚ) - (b.summary.1 : ℚ) / b.isr) / ((b.summary.2 : ℚ) + 1))) ∧
    ((b.allow sample).err = some GoError.errNotAllowed ↔
      b.dropProba sample (dropRate b.summary.1 b.summary.2 b.isr) = true) ∧
    ((b.allow sample).err = none ↔
      b.dropProba sample (dropRate b.summary.1 b.summary.2 b.isr) = false) ∧
    (b.allow sample).draws = 1 := by
  have hg : ¬(b.summary.2 < b.ignoreRequests ∨
      (b.summary.2 : ℚ) < inspirationRequests b.summary.1 b.isr) := by
    push_neg
    exact ⟨h1, h2⟩
  refine ⟨rfl, ?_⟩
  rw [allow_of_not_guard sample hg]
  by_cases hd : b.dropProba sample (dropRate b.summary.1 b.summary.2 b.isr) <;>
    simp [hd]

/-- A breaker with 100 failures out of 100, for the C3 witness. -/
def breakerC3 : Breaker :=
  { window := List.replicate 100 0, dropProba := dropProbaDefault, isr := 1 / 2,
    ignoreRequests := 100 }

/-- Witness for C3: with 100 recorded failures, `ignoreRequests = 100` and a
sample of `1/3 < dr`, the rejection branch is taken with one sample drawn. -/
theorem claim3_drop_formula_witness :
    (breakerC3.allow (1 / 3)).err = some GoError.errNotAllowed ∧
    (breakerC3.allow (1 / 3)).draws = 1 := by
  have h := claim3_drop_formula breakerC3 (1 / 3)
    (by norm_num [breakerC3, Breaker.summary])
    (by norm_num [breakerC3, Breaker.summary, inspirationRequests])
  refine ⟨h.2.1.mpr ?_, h.2.2.2⟩
  norm_num [breakerC3, Breaker.summary, dropProbaDefault, dropRate, inspirationRequests]

/-- Claim C4: whenever `Allow` reaches the drop-probability computation
(counts with `0 ≤ successCount ≤ totalCount`, `isr > 0`, guard not firing),
the computed `dr` is strictly below `1`, and under the default policy some
sample in `[0,1)` admits — rejection is never certain. -/
theorem claim4_never_certain (b : Breaker)
    (hpol : b.dropProba = dropProbaDefault)
    (hs0 : 0 ≤ b.summary.1) (hst : b.summary.1 ≤ b.summary.2)
    (hisr : 0 < b.isr)
    (h1 : b.ignoreRequests ≤ b.summary.2)
    (h2 : inspirationRequests b.summary.1 b.isr ≤ (b.summary.2 : ℚ)) :
    dropRate b.summary.1 b.summary.2 b.isr < 1 ∧
    ∃ s : ℚ, 0 ≤ s ∧ s < 1 ∧ (b.allow s).err = none := by
  have ht0 : (0 : ℚ) ≤ (b.summary.2 : ℚ) := by
    have : (0 : ℤ) ≤ b.summary.2 := le_trans hs0 hst
    exact_mod_cast this
  have hdenom : (0 : ℚ) < (b.summary.2 : ℚ) + 1 := by linarith
  have hnum : (0 : ℚ) ≤ inspirationRequests b.summary.1 b.isr := by
    rw [inspirationRequests]
    apply div_nonneg _ (le_of_lt hisr)
    exact_mod_cast hs0
  have hlt : dropRate b.summary.1 b.summary.2 b.isr < 1 := by
    rw [dropRate]
    apply max_lt one_pos
    rw [div_lt_one hdenom]
    linarith
  refine ⟨hlt, dropRate b.summary.1 b.summary.2 b.isr, le_max_left _ _, hlt, ?_⟩
  have hg : ¬(b.summary.2 < b.ignoreRequests ∨
      (b.summary.2 : ℚ) < inspirationRequests b.summary.1 b.isr) := by
    push_neg
    exact ⟨h1, h2⟩
  rw [allow_of_not_guard _ hg, hpol]
  have hfalse : dropProbaDefault (dropRate b.summary.1 b.summary.2 b.isr)
      (dropRate b.summary.1 b.summary.2 b.isr) = false := by
    simp [dropProbaDefault]
  rw [hfalse]
  simp

/-- A breaker with 20 successes out of 100, for the C4 witness. -/
def breakerC4 : Breaker :=
  { window := List.replicate 20 1 ++ List.replicate 80 0,
    dropProba := dropProbaDefault, isr := 1 / 2, ignoreRequests := 100 }

/-- Witness for C4: a degraded window (20% success, isr 0.5) still has a
drop probability below 1 and an admitting sample. -/
theorem claim4_never_certain_witness :
    dropRate breakerC4.summary.1 breakerC4.summary.2 breakerC4.isr < 1 ∧
    ∃ s : ℚ, 0 ≤ s ∧ s < 1 ∧ (breakerC4.allow s).err = none :=
  claim4_never_certain breakerC4 rfl
    (by norm_num [breakerC4, Breaker.summary])
    (by norm_num [breakerC4, Breaker.summary])
    (by norm_num [breakerC4])
    (by norm_num [breakerC4, Breaker.summary])
    (by norm_num [breakerC4, Breaker.summary, inspirationRequests])

end SreBreaker
namespace SreBreaker

/-- Claim C5: `Allow` returns either `nil` or the single sentinel rejection
error, never any other error, for every breaker state and sample; and
`MarkSuccess` / `MarkFailed` are infallible total updates — they produce a
breaker (no error channel), recording `Add(1)` resp. `Add(0)`. -/
theorem claim5_error_range :
    (∀ (b : Breaker) (sample : ℚ),
      (b.allow sample).err = none ∨
      (b.allow sample).err = some GoError.errNotAllowed) ∧
    (∀ b : Breaker,
      b.MarkSuccess.window = 1 :: b.window ∧ b.MarkFailed.window = 0 :: b.window) := by
  constructor
  · intro b sample
    by_cases hg : b.summary.2 < b.ignoreRequests ∨
        (b.summary.2 : ℚ) < inspirationRequests b.summary.1 b.isr
    · left
      rw [allow_of_guard sample hg]
    · rw [allow_of_not_guard sample hg]
      by_cases hd : b.dropProba sample (dropRate b.summary.1 b.summary.2 b.isr) <;>
        simp [hd]
  · intro b
    exact ⟨rfl, rfl⟩

/-- All-zero/one window contents: what `MarkSuccess`/`MarkFailed` produce. -/
def binaryWindow (l : List ℤ) : Prop :=
  ∀ x ∈ l, x = 0 ∨ x = 1

theorem binaryWindow_applyOp (b : Breaker) (op : MarkOp)
    (h : binaryWindow b.window) : binaryWindow (applyOp b op).window := by
  cases op <;>
    · intro x hx
      rcases List.mem_cons.mp hx with hx | hx
      · simp [hx]
      · exact h x hx

theorem binaryWindow_applyOps (b : Breaker) (ops : List MarkOp)
    (h : binaryWindow b.window) : binaryWindow (applyOps b ops).window := by
  induction ops generalizing b with
  | nil => exact h
  | cons op ops ih =>
    rw [applyOps_cons]
    exact ih _ (binaryWindow_applyOp b op h)

theorem binaryWindow_sum_bounds (l : List ℤ) (h : binaryWindow l) :
    0 ≤ l.sum ∧ l.sum ≤ (l.length : ℤ) := by
  induction l with
  | nil => simp
  | cons x l ih =>
    have hx := h x (List.mem_cons_self x l)
    have hl := ih (fun y hy => h y (List.mem_cons_of_mem x hy))
    simp only [List.sum_cons, List.length_cons]
    rcases hx with hx | hx <;> rw [hx] <;> push_cast <;> omega

/-- Claim C6: after any sequence of `MarkSuccess`/`MarkFailed` calls on a
breaker built by `New`, the summary satisfies
`0 ≤ successCount ≤ totalCount`: every recorded sample is `Add(1)` or
`Add(0)`, so the window's `Sum` stays between `0` and its `Count`. -/
theorem claim6_summary_invariant (opts : List (Options → Options))
    (ops : List MarkOp) :
    0 ≤ (applyOps (New opts) ops).summary.1 ∧
    (applyOps (New opts) ops).summary.1 ≤ (applyOps (New opts) ops).summary.2 := by
  have hnew : binaryWindow (New opts).window := by
    intro x hx
    simp [New] at hx
  have hbin := binaryWindow_applyOps (New opts) ops hnew
  have := binaryWindow_sum_bounds _ hbin
  simpa [Breaker.summary] using this

/-- Claim C7: `Allow` is read-only on the breaker: the post-call state equals
the pre-call state — in particular the window, hence the success and total
counts, are unchanged, and no sample is ever recorded by `Allow`. -/
theorem claim7_allow_frame (b : Breaker) (sample : ℚ) :
    (b.allow sample).post = b ∧
    (b.allow sample).post.window = b.window ∧
    (b.allow sample).post.summary = b.summary := by
  by_cases hg : b.summary.2 < b.ignoreRequests ∨
      (b.summary.2 : ℚ) < inspirationRequests b.summary.1 b.isr
  · rw [allow_of_guard sample hg]
    exact ⟨rfl, rfl, rfl⟩
  · rw [allow_of_not_guard sample hg]
    by_cases hd : b.dropProba sample (dropRate b.summary.1 b.summary.2 b.isr) <;>
      simp [hd]

end SreBreaker
namespace SreBreaker

/-- Claim C8: with a constant-false drop policy `Allow` admits on every state;
with a constant-true policy it rejects exactly when the self-protection guard
does not fire; with either constant policy the result does not depend on the
drawn sample (two runs on the same state agree). -/
theorem claim8_constant_policy :
    (∀ (b : Breaker), b.dropProba = (fun _ _ => false) →
      ∀ sample : ℚ, (b.allow sample).err = none) ∧
    (∀ (b : Breaker), b.dropProba = (fun _ _ => true) →
      ∀ sample : ℚ,
        ((b.allow sample).err = some GoError.errNotAllowed ↔
          ¬(b.summary.2 < b.ignoreRequests ∨
            (b.summary.2 : ℚ) < inspirationRequests b.summary.1 b.isr))) ∧
    (∀ (b : Breaker) (c : Bool), b.dropProba = (fun _ _ => c) →
      ∀ s₁ s₂ : ℚ, b.allow s₁ = b.allow s₂) := by
  refine ⟨?_, ?_, ?_⟩
  · intro b hpol sample
    by_cases hg : b.summary.2 < b.ignoreRequests ∨
        (b.summary.2 : ℚ) < inspirationRequests b.summary.1 b.isr
    · rw [allow_of_guard sample hg]
    · rw [allow_of_not_guard sample hg, hpol]
      simp
  · intro b hpol sample
    by_cases hg : b.summary.2 < b.ignoreRequests ∨
        (b.summary.2 : ℚ) < inspirationRequests b.summary.1 b.isr
    · rw [allow_of_guard sample hg]
      simp [hg]
    · rw [allow_of_not_guard sample hg, hpol]
      simp [hg]
  · intro b c hpol s₁ s₂
    by_cases hg : b.summary.2 < b.ignoreRequests ∨
        (b.summary.2 : ℚ) < inspirationRequests b.summary.1 b.isr
    · rw [allow_of_guard s₁ hg, allow_of_guard s₂ hg]
    · rw [allow_of_not_guard s₁ hg, allow_of_not_guard s₂ hg, hpol]

/-- A saturated-failure breaker with the constant-false policy, for C8. -/
def breakerC8false : Breaker :=
  { window := List.replicate 100 0, dropProba := fun _ _ => false, isr := 1 / 2,
    ignoreRequests := 100 }

/-- A saturated-failure breaker with the constant-true policy, for C8. -/
def breakerC8true : Breaker :=
  { window := List.replicate 100 0, dropProba := fun _ _ => true, isr := 1 / 2,
    ignoreRequests := 100 }

/-- Witness for C8: on 100 recorded failures, the constant-false policy still
admits, the constant-true policy rejects (the guard does not fire), and both
give sample-independent results. -/
theorem claim8_constant_policy_witness :
    (breakerC8false.allow (1 / 3)).err = none ∧
    (breakerC8true.allow (1 / 3)).err = some GoError.errNotAllowed ∧
    breakerC8false.allow (1 / 3) = breakerC8false.allow (2 / 3) ∧
    breakerC8true.allow (1 / 3) = breakerC8true.allow (2 / 3) := by
  refine ⟨claim8_constant_policy.1 breakerC8false rfl (1 / 3),
    (claim8_constant_policy.2.1 breakerC8true rfl (1 / 3)).mpr ?_,
    claim8_constant_policy.2.2 breakerC8false false rfl (1 / 3) (2 / 3),
    claim8_constant_policy.2.2 breakerC8true true rfl (1 / 3) (2 / 3)⟩
  push_neg
  constructor
  · norm_num [breakerC8true, Breaker.summary]
  · norm_num [breakerC8true, Breaker.summary, inspirationRequests]

/-- Claim C9: `WithInspirationSuccessRate` stores its argument verbatim and
`New` copies it into the breaker unchanged — no validation or clamping at
construction; with isr `0`, the divisor of the `inspirationRequests`
division performed by `Allow` is literally `0`, and nothing guards it at
evaluation time either. -/
theorem claim9_zero_isr_division :
    (∀ q : ℚ, (WithInspirationSuccessRate q defaultOptions).isr = q) ∧
    (∀ q : ℚ, (New [WithInspirationSuccessRate q]).isr = q) ∧
    (New [WithInspirationSuccessRate 0]).isr = 0 ∧
    (∀ accepts : ℤ,
      inspirationRequests accepts (New [WithInspirationSuccessRate 0]).isr =
        (accepts : ℚ) / 0) := by
  exact ⟨fun q => rfl, fun q => rfl, rfl, fun accepts => rfl⟩

/-- Claim C10: on every state that reaches the drop-probability line
(`totalCount ≥ ignoreRequests`, `totalCount ≥ successCount / isr`,
`isr > 0`), the `max 0 ·` clamp is redundant: the numerator is already
nonnegative and the denominator positive, so `dr` equals the unclamped
quotient. -/
theorem claim10_clamp_redundant (b : Breaker)
    (hisr : 0 < b.isr)
    (h1 : b.ignoreRequests ≤ b.summary.2)
    (h2 : inspirationRequests b.summary.1 b.isr ≤ (b.summary.2 : ℚ)) :
    dropRate b.summary.1 b.summary.2 b.isr =
      ((b.summary.2 : ℚ) - inspirationRequests b.summary.1 b.isr) /
        ((b.summary.2 : ℚ) + 1) := by
  have ht0 : (0 : ℚ) ≤ (b.summary.2 : ℚ) := by
    have : (0 : ℤ) ≤ b.summary.2 := Int.ofNat_nonneg _
    exact_mod_cast this
  rw [dropRate, max_eq_right]
  apply div_nonneg
  · linarith
  · linarith

/-- A breaker with 40 successes out of 100, for the C10 witness. -/
def breakerC10 : Breaker :=
  { window := List.replicate 40 1 ++ List.replicate 60 0,
    dropProba := dropProbaDefault, isr := 1 / 2, ignoreRequests := 100 }

/-- Witness for C10: at 40 successes out of 100 with isr 0.5, the clamp is
inert and `dr` is the plain quotient `(100 - 80) / 101`. -/
theorem claim10_clamp_redundant_witness :
    dropRate breakerC10.summary.1 breakerC10.summary.2 breakerC10.isr =
      ((breakerC10.summary.2 : ℚ) -
        inspirationRequests breakerC10.summary.1 breakerC10.isr) /
        ((breakerC10.summary.2 : ℚ) + 1) :=
  claim10_clamp_redundant breakerC10
    (by norm_num [breakerC10])
    (by norm_num [breakerC10, Breaker.summary])
    (by norm_num [breakerC10, Breaker.summary, inspirationRequests])

end SreBreaker
